import Mathlib

/-!
Verification development for the spectrum-synthesis module of GLASS-NIRISS
(`src/glass_niriss/grism/specgen.py`).

The module extends `bagpipes.models.model_galaxy` with an `update` /
`_calculate_full_spectrum` pair that combines stellar, nebular, dust, IGM and
damped-absorber (DLA) effects into a full model spectrum, with optional removal
of named emission lines.

Modelling conventions of this shallow embedding:
* floating-point scalars become exact rationals (`ℚ`); arrays become `List ℚ`;
* the external bagpipes collaborators (star-formation history, stellar grids,
  nebular models, dust curves, IGM transmission, AGN, photometry, index
  measurement, the redshift-distance table) are opaque providers of arrays
  given parameters, bundled as function fields of `Ext`, together with
  rational stand-ins for the transcendental primitives `exp`, `10^x`, `π`
  and `√π` used by the source formulas;
* in-place mutation of instance attributes becomes explicit state passing on
  `GalaxyState`; a Python exception becomes `Except.error`; the
  `warnings.warn` call becomes a boolean flag in the result.
-/

namespace GlassNiriss

/-- Payload of a star-formation-history grid (`sfh.ceh.grid` in the source);
an opaque array handed between the external collaborators. -/
abbrev Grid := List ℚ

/-- A sub-component mapping of named scalar parameters
(for example `model_components["dust"]`). -/
abbrev SubComp := List (String × ℚ)

/-- One entry of the model-components dictionary: either a scalar parameter
(for example `redshift`) or a sub-component mapping. -/
inductive MCEntry where
  | num (q : ℚ)
  | sub (d : SubComp)
deriving DecidableEq

/-- The nested `model_components` dictionary of the source. -/
abbrev ModelComponents := List (String × MCEntry)

/-- Dictionary lookup of a top-level entry. -/
def findEntry (mc : ModelComponents) (k : String) : Option MCEntry :=
  (mc.find? (fun p => p.1 == k)).map (fun p => p.2)

/-- Python `k in list(model_comp)`: key membership at top level. -/
def hasKey (mc : ModelComponents) (k : String) : Bool :=
  mc.any (fun p => p.1 == k)

/-- The sub-component mapping stored under `k` (empty if absent or scalar). -/
def subComp (mc : ModelComponents) (k : String) : SubComp :=
  match findEntry mc k with
  | some (.sub d) => d
  | _ => []

/-- The scalar stored under `k`, with a default for an absent key. -/
def numEntry (mc : ModelComponents) (k : String) (dflt : ℚ) : ℚ :=
  match findEntry mc k with
  | some (.num q) => q
  | _ => dflt

/-- Lookup in a sub-component mapping. -/
def subLookup (d : SubComp) (k : String) : Option ℚ :=
  (d.find? (fun p => p.1 == k)).map (fun p => p.2)

/-- Lookup in a sub-component mapping with a default (Python `dict.get`). -/
def subLookupD (d : SubComp) (k : String) (dflt : ℚ) : ℚ :=
  (subLookup d k).getD dflt

/-- Python dict assignment `d[k] = v`: overwrite in place when the key exists,
append otherwise. -/
def setKey (d : SubComp) (k : String) (v : ℚ) : SubComp :=
  if d.any (fun p => p.1 == k) then d.map (fun p => if p.1 == k then (k, v) else p)
  else d ++ [(k, v)]

/-- Embeds `np.trapz(y, x=x)`: trapezoidal integration of `y` sampled at `x`. -/
def trapz : List ℚ → List ℚ → ℚ
  | y1 :: y2 :: ys, x1 :: x2 :: xs => (x2 - x1) * (y1 + y2) / 2 + trapz (y2 :: ys) (x2 :: xs)
  | _, _ => 0

/-- Auxiliary scan for `argminIdx`: `i` is the index of the next element,
`bi` the best index so far, `bv` the best value so far. -/
def argminAux : List ℚ → Nat → Nat → ℚ → Nat
  | [], _, bi, _ => bi
  | x :: xs, i, bi, bv => if x < bv then argminAux xs (i + 1) i x else argminAux xs (i + 1) bi bv

/-- Embeds `np.argmin`: index of the first minimum; `none` on an empty array
(numpy raises `ValueError` there, handled at call sites). -/
def argminIdx : List ℚ → Option Nat
  | [] => none
  | x :: xs => some (argminAux xs 1 0 x)

/-- External collaborators and transcendental primitives, treated as opaque
pure functions of their parameters (spec section 6: the stellar population
grids, dust and nebular emission models, IGM transmission tables and
star-formation-history machinery are external and treated as opaque providers
of arrays given physical parameters). `exp`, `tenPow`, `pi` and `sqrtPi` are
rational stand-ins for `np.exp`, `10 ** x`, `np.pi` and `np.sqrt(np.pi)`. -/
structure Ext where
  exp : ℚ → ℚ
  tenPow : ℚ → ℚ
  pi : ℚ
  sqrtPi : ℚ
  /-- Runs `sfh.update(mc)` followed by reading `sfh.unphysical` and `sfh.ceh.grid`. -/
  sfh : ModelComponents → Bool × Grid
  /-- Runs `dust_atten.update(mc["dust"])` followed by reading `(A_cont, A_line)`. -/
  dustCurves : SubComp → List ℚ × List ℚ
  /-- Runs `stellar.spectrum(grid, t_bc)` returning `(spectrum_bc, spectrum)`. -/
  stellar : Grid → ℚ → List ℚ × List ℚ
  /-- Runs `nebular.line_fluxes(grid, t_bc, logU)`. -/
  nebLineFluxes : Grid → ℚ → ℚ → List ℚ
  /-- Runs `nebular.spectrum(grid, t_bc, logU)`. -/
  nebSpectrum : Grid → ℚ → ℚ → List ℚ
  /-- Runs `igm.trans(redshift)`, sampled on the wavelength grid. -/
  igmTrans : ℚ → List ℚ
  /-- Runs `dust_emission.spectrum(qpah, umin, gamma)`. -/
  dustEmission : ℚ → ℚ → ℚ → List ℚ
  /-- Runs `agn.update(mc["agn"])` followed by reading `agn.spectrum`. -/
  agnSpectrum : SubComp → List ℚ
  /-- Runs `np.interp(spec_wavs, wavelengths * (1 + z), agn_spec / (1 + z), 0, 0)`. -/
  agnInterp : List ℚ → List ℚ → List ℚ → List ℚ
  /-- Runs `np.interp(z, utils.z_array, utils.ldist_at_z, 0, 0)`: the precomputed
  redshift to luminosity-distance table of bagpipes. -/
  ldistInterp : ℚ → ℚ
  /-- Runs `_calculate_spectrum(mc)`: resampling the full spectrum onto `spec_wavs`. -/
  calcSpectrum : List ℚ → ModelComponents → List ℚ
  /-- Runs `_calculate_photometry(redshift)` from the full spectrum. -/
  photometry : List ℚ → ℚ → List ℚ
  /-- Runs `_calculate_uvj_mags()` from the full spectrum. -/
  uvjMags : List ℚ → List ℚ
  /-- Runs `measure_index(index_def, spectrum, redshift)`. -/
  measureIndex : String → List ℚ → ℚ → ℚ

/-- The Voigt-Hjerting profile `H(a, x)` of the source (Garcia+06 numerical
approximation). `x ** (-2)` is embedded as `(x ^ 2)⁻¹`. -/
def H (ext : Ext) (a : ℚ) (x : ℚ) : ℚ :=
  let P := x ^ 2
  let H0 := ext.exp (-(x ^ 2))
  let Q := 1.5 * (x ^ 2)⁻¹
  H0 - a / ext.sqrtPi / P * (H0 ^ 2 * (4.0 * P ^ 2 + 7.0 * P + 4.0 + Q) - Q - 1.0)

/-- Embeds `addAbs(wl_mod, t, zabs)` of the source: the DLA transmission `exp(-tau)`
evaluated at each wavelength of `wl_mod`, for column density `t` and absorber
redshift `zabs`. -/
def addAbs (ext : Ext) (wl_mod : List ℚ) (t : ℚ) (zabs : ℚ) : List ℚ :=
  let m_e : ℚ := 9.1095e-28
  let e : ℚ := 4.8032e-10
  let c : ℚ := 2.998e10
  let lamb : ℚ := 1215.67
  let f : ℚ := 0.416
  let gamma : ℚ := 6.265e8
  let broad : ℚ := 1
  let C_a := ext.sqrtPi * e ^ 2 * f * lamb * 1e-8 / m_e / c / broad
  let a := lamb * 1.0e-8 * gamma / (4.0 * ext.pi * broad)
  let dl_D := broad / c * lamb
  wl_mod.map (fun wl =>
    let x := (wl / (zabs + 1.0) - lamb) / dl_D + 0.01
    ext.exp (-(C_a * t * H ext a x)))

/-- Per-instance configuration fixed at construction of the model galaxy:
the internal wavelength grid, the Cloudy line tables (`config.line_names`,
`config.line_wavs`), and which optional components are enabled. -/
structure Config where
  wavelengths : List ℚ
  lineNames : List String
  lineWavs : List ℚ
  dustAtten : Bool
  nebular : Bool
  agn : Bool
  specWavs : Option (List ℚ)
  filtList : Bool
  indexList : Option (List String)
deriving DecidableEq

/-- Indices `i` with `config.line_names[i] == rm` (`np.argwhere` on the
equality mask). -/
def linesMatching (cfg : Config) (rm : String) : List Nat :=
  (List.range cfg.lineNames.length).filter (fun i => cfg.lineNames.getD i "" == rm)

/-- Removal of a single named emission line from the birth-cloud spectrum
(the body of the `for rm in rm_line` loop in `_calculate_full_spectrum`).
An unknown name gives an empty index set, on which `np.argmin` raises
`ValueError`; line names are unique in the bagpipes line table, so a
duplicated name is modelled as an error as well. -/
def removeLine (cfg : Config) (velshift : ℚ) (em_lines : List ℚ) (bc : List ℚ)
    (rm : String) : Except String (List ℚ) :=
  match linesMatching cfg rm with
  | [] => .error "attempt to get argmin of an empty sequence"
  | [j] =>
    let line_wav_shift := cfg.lineWavs.getD j 0 * (1 + velshift / (3 * 10 ^ 5))
    match argminIdx (cfg.wavelengths.map (fun w => |w - line_wav_shift|)) with
    | none => .error "attempt to get argmin of an empty sequence"
    | some ind =>
      if ind ≠ 0 ∧ ind ≠ cfg.wavelengths.length - 1 then
        let width := (cfg.wavelengths.getD (ind + 1) 0 - cfg.wavelengths.getD (ind - 1) 0) / 2
        .ok (bc.set ind (bc.getD ind 0 - em_lines.getD j 0 / width))
      else .ok bc
  | _ => .error "ambiguous line name"

/-- Sequential removal of all requested lines. -/
def removeLines (cfg : Config) (velshift : ℚ) (em_lines : List ℚ) (bc : List ℚ) :
    List String → Except String (List ℚ)
  | [] => .ok bc
  | rm :: rest =>
    match removeLine cfg velshift em_lines bc rm with
    | .error msg => .error msg
    | .ok bc2 => removeLines cfg velshift em_lines bc2 rest

/-- The model-components dictionary used for the nebular star-formation
history when `model_comp["nebular"]` declares a metallicity: a deep copy in
which `neb_comp[comp]["metallicity"] = nebular_metallicity` is executed for
every `comp` whose entry is a dict. -/
def nebOverride (mc : ModelComponents) (zmet : ℚ) : ModelComponents :=
  mc.map (fun p =>
    match p.2 with
    | .sub d => (p.1, MCEntry.sub (setKey d "metallicity" zmet))
    | .num q => (p.1, MCEntry.num q))

/-- The grid used for nebular emission: recomputed from the overridden
components when a nebular metallicity is declared, otherwise a copy of the
star-formation history grid. -/
def nebGrid (ext : Ext) (mc : ModelComponents) : Grid :=
  match subLookup (subComp mc "nebular") "metallicity" with
  | some zmet => (ext.sfh (nebOverride mc zmet)).2
  | none => (ext.sfh mc).2

/-- Embeds `spectrum_bc[self.wavelengths < 912.] = 0.`: zero all stellar birth-cloud
flux below the Lyman limit. -/
def zeroBelowLyman (wav bc : List ℚ) : List ℚ :=
  List.zipWith (fun w s => if w < 912 then (0 : ℚ) else s) wav bc

/-- The nebular block of `_calculate_full_spectrum` (lines 222-258): line
fluxes, Lyman-limit zeroing, nebular continuum addition, and line removal.
Returns the updated birth-cloud spectrum and the emission-line fluxes. -/
def nebularStage (ext : Ext) (cfg : Config) (mc : ModelComponents) (t_bc : ℚ)
    (cont_only : Bool) (rm_line : Option (List String)) (spectrum_bc : List ℚ) :
    Except String (List ℚ × List ℚ) :=
  if cfg.nebular && !cont_only then
    let grid := nebGrid ext mc
    let nebSub := subComp mc "nebular"
    let logU := subLookupD nebSub "logU" 0
    let em_lines := List.zipWith (· + ·) (List.replicate cfg.lineWavs.length 0)
      (ext.nebLineFluxes grid t_bc logU)
    let bc1 := List.zipWith (· + ·) (zeroBelowLyman cfg.wavelengths spectrum_bc)
      (ext.nebSpectrum grid t_bc logU)
    match rm_line with
    | some rms =>
      (removeLines cfg (subLookupD nebSub "velshift" 0) em_lines bc1 rms).map
        (fun bc2 => (bc2, em_lines))
    | none => .ok (bc1, em_lines)
  else .ok (spectrum_bc, List.replicate cfg.lineWavs.length 0)

/-- Extra birth-cloud dust attenuation (lines 264-275): applied only when the
dust component declares `eta`; returns the attenuated birth-cloud spectrum and
the trapezoidal integral of the flux removed (the energy-balance term). -/
def bcDustAttenuate (ext : Ext) (wav A_cont : List ℚ) (dustSub : SubComp)
    (bc : List ℚ) : List ℚ × ℚ :=
  match subLookup dustSub "eta" with
  | some eta =>
    let bc_Av_reduced := (eta - 1) * subLookupD dustSub "Av" 0
    let bc_trans_red := A_cont.map (fun a => ext.tenPow (-bc_Av_reduced * a / 2.5))
    let bc_dust := List.zipWith (· * ·) bc bc_trans_red
    (bc_dust, trapz (List.zipWith (· - ·) bc bc_dust) wav)
  | none => (bc, 0)

/-- Diffuse-ISM dust attenuation (lines 284-290): returns the attenuated
spectrum, the transmission curve, and the trapezoidal integral of the flux
removed (the second energy-balance term). -/
def diffuseDustAttenuate (ext : Ext) (wav A_cont : List ℚ) (Av : ℚ)
    (spec : List ℚ) : List ℚ × List ℚ × ℚ :=
  let trans := A_cont.map (fun a => ext.tenPow (-Av * a / 2.5))
  let dust_spectrum := List.zipWith (· * ·) spec trans
  (dust_spectrum, trans, trapz (List.zipWith (· - ·) spec dust_spectrum) wav)

/-- Dust re-emission (lines 292-303): the three-parameter template (defaults
`qpah = 2.0`, `umin = 1.0`, `gamma = 0.01`), scaled by the accumulated
energy-balance total `dust_flux`, added to the spectrum. -/
def dustEmissionAdd (ext : Ext) (dustSub : SubComp) (dust_flux : ℚ)
    (spec : List ℚ) : List ℚ :=
  let qpah := subLookupD dustSub "qpah" 2.0
  let umin := subLookupD dustSub "umin" 1.0
  let gamma := subLookupD dustSub "gamma" 0.01
  List.zipWith (· + ·) spec ((ext.dustEmission qpah umin gamma).map (fun d => dust_flux * d))

/-- The DLA block (lines 307-312): when `"dla"` is among the model components
the spectrum is multiplied by `addAbs(self.wavelengths * redshift, t, zabs)`.
Note that the source multiplies the rest-frame grid by `redshift`, not by
`1 + redshift`. -/
def dlaStage (ext : Ext) (cfg : Config) (mc : ModelComponents) (spec : List ℚ) : List ℚ :=
  if hasKey mc "dla" then
    List.zipWith (· * ·) spec
      (addAbs ext (cfg.wavelengths.map (fun w => w * numEntry mc "redshift" 0))
        (subLookupD (subComp mc "dla") "t" 0)
        (subLookupD (subComp mc "dla") "zabs" 0))
  else spec

/-- Embeds `self.lum_flux` (lines 317-332): `4 pi d_L^2` with the luminosity distance
in cm interpolated from the precomputed redshift-distance table when
`redshift > 0`, and exactly `1` otherwise. -/
def lumFluxOf (ext : Ext) (z : ℚ) : ℚ :=
  if 0 < z then 4 * ext.pi * (3.086 * 10 ^ 24 * ext.ldistInterp z) ^ 2 else 1

/-- Luminosity-to-flux conversion of a spectrum (lines 334 and 342): divide by
`lum_flux * (1 + z)`, then apply the solar-luminosity unit constant. -/
def fluxConvertSpec (L z : ℚ) (spec : List ℚ) : List ℚ :=
  (spec.map (fun s => s / (L * (1.0 + z)))).map (fun s => s * (3.826 * 10 ^ 33))

/-- Luminosity-to-flux conversion of the emission-line fluxes (lines 339 and
347): divide by `lum_flux` only (no `1 + z` factor), then apply the
solar-luminosity unit constant. -/
def fluxConvertLines (L : ℚ) (em : List ℚ) : List ℚ :=
  (em.map (fun s => s / L)).map (fun s => s * (3.826 * 10 ^ 33))

/-- The outputs of `_calculate_full_spectrum`: the attributes it writes. -/
structure FullSpecResult where
  spectrum_full : List ℚ
  spectrum_bc : Option (List ℚ)
  line_fluxes : List (String × ℚ)
  lum_flux : ℚ
deriving DecidableEq

/-- Everything of `_calculate_full_spectrum` after the nebular block: dust
attenuation with energy balance, dust re-emission, IGM transmission, the DLA
block, and the luminosity-to-flux conversion (lines 260-351). The separately
tracked birth-cloud spectrum is produced only when dust attenuation is
enabled. -/
def fullSpecCore (ext : Ext) (cfg : Config) (mc : ModelComponents)
    (spectrum spectrum_bc em_lines : List ℚ) : FullSpecResult :=
  let z := numEntry mc "redshift" 0
  let dustSub := subComp mc "dust"
  let curves := ext.dustCurves dustSub
  let Av := subLookupD dustSub "Av" 0
  let bcPair := if cfg.dustAtten then bcDustAttenuate ext cfg.wavelengths curves.1 dustSub spectrum_bc
                else (spectrum_bc, 0)
  let em1 := if cfg.dustAtten then
      List.zipWith (· * ·) em_lines
        (curves.2.map (fun al => ext.tenPow (-(subLookupD dustSub "eta" 1 * Av) * al / 2.5)))
    else em_lines
  let spectrum1 := List.zipWith (· + ·) spectrum bcPair.1
  let diffTriple := diffuseDustAttenuate ext cfg.wavelengths curves.1 Av spectrum1
  let spectrum2 := if cfg.dustAtten then
      dustEmissionAdd ext dustSub (bcPair.2 + diffTriple.2.2) diffTriple.1
    else spectrum1
  let bcOut : Option (List ℚ) :=
    if cfg.dustAtten then some (List.zipWith (· * ·) bcPair.1 diffTriple.2.1) else none
  let spectrum3 := List.zipWith (· * ·) spectrum2 (ext.igmTrans z)
  let spectrum4 := dlaStage ext cfg mc spectrum3
  let bcOut2 := bcOut.map (fun b => List.zipWith (· * ·) b (ext.igmTrans z))
  let L := lumFluxOf ext z
  { spectrum_full := fluxConvertSpec L z spectrum4
    spectrum_bc := bcOut2.map (fun b => fluxConvertSpec L z b)
    line_fluxes := cfg.lineNames.zip (fluxConvertLines L em1)
    lum_flux := L }

/-- Embeds `_calculate_full_spectrum` (lines 184-351). -/
def calculateFullSpectrum (ext : Ext) (cfg : Config) (mc : ModelComponents)
    (cont_only : Bool) (rm_line : Option (List String)) : Except String FullSpecResult :=
  let t_bc := numEntry mc "t_bc" 0.01
  let sp := ext.stellar (ext.sfh mc).2 t_bc
  match nebularStage ext cfg mc t_bc cont_only rm_line sp.1 with
  | .error msg => .error msg
  | .ok (bc1, em1) => .ok (fullSpecCore ext cfg mc sp.2 bc1 em1)

/-- The mutable instance attributes of the model galaxy touched by `update`.
`spectrum_bc` and `line_fluxes` are `Option`s because they do not exist before
the first physical update writes them. -/
structure GalaxyState where
  model_comp : ModelComponents
  spectrum_full : List ℚ
  spectrum_bc : Option (List ℚ)
  line_fluxes : Option (List (String × ℚ))
  lum_flux : ℚ
  uvj : List ℚ
  spectrum : Option (List ℚ)
  photometry : Option (List ℚ)
  indices : Option (List ℚ)
  index_names : Option (List String)
deriving DecidableEq

/-- The tail of `update` after the unphysical/physical branch (lines 145-182):
spectrum resampling, the AGN block, photometry, UVJ magnitudes (skipped when
the star-formation history is unphysical) and spectral indices. The source
mutates attributes sequentially; here the same data flow is written as one
record: `calcSpectrum` reads the pre-AGN full spectrum, photometry and UVJ
read the post-AGN full spectrum, and the index measurements read the resampled
spectrum (the stale previous value when no output grid is configured). -/
def updateRest (ext : Ext) (cfg : Config) (s : GalaxyState) (mc : ModelComponents)
    (unphysical : Bool) : GalaxyState :=
  let z := numEntry mc "redshift" 0
  let agn_spec := List.zipWith (· * ·) (ext.agnSpectrum (subComp mc "agn")) (ext.igmTrans z)
  let fullA := if cfg.agn then
      List.zipWith (· + ·) s.spectrum_full (agn_spec.map (fun a => a / (1.0 + z)))
    else s.spectrum_full
  let specRes : Option (List ℚ) :=
    match cfg.specWavs with
    | some sw =>
      let base := ext.calcSpectrum s.spectrum_full mc
      if cfg.agn then
        some (List.zipWith (· + ·) base
          (ext.agnInterp sw (cfg.wavelengths.map (fun w => w * (z + 1.0)))
            (agn_spec.map (fun a => a / (z + 1.0)))))
      else some base
    | none => s.spectrum
  { model_comp := s.model_comp
    spectrum_full := fullA
    spectrum_bc := s.spectrum_bc
    line_fluxes := s.line_fluxes
    lum_flux := s.lum_flux
    uvj := if unphysical then s.uvj else ext.uvjMags fullA
    spectrum := specRes
    photometry := if cfg.filtList then some (ext.photometry fullA z) else s.photometry
    indices := match cfg.indexList with
      | some inds => some (inds.map (fun nm => ext.measureIndex nm (specRes.getD []) z))
      | none => s.indices
    index_names := match cfg.indexList with
      | some inds => some inds
      | none => s.index_names }

/-- Embeds `update` (lines 95-182). The boolean of the result records whether the
"stars formed before the Big Bang" `RuntimeWarning` was emitted. When the
star-formation history is unphysical, the full spectrum and the UVJ magnitudes
are zeroed and spectrum synthesis is skipped; otherwise the synthesised
outputs are written (`spectrum_bc` only when dust attenuation is enabled). -/
def update (ext : Ext) (cfg : Config) (s : GalaxyState) (mc : ModelComponents)
    (cont_only : Bool) (rm_line : Option (List String)) :
    Except String (GalaxyState × Bool) :=
  if (ext.sfh mc).1 then
    .ok (updateRest ext cfg
      { s with model_comp := mc
               spectrum_full := List.replicate cfg.wavelengths.length 0
               uvj := List.replicate 3 0 } mc true, true)
  else
    match calculateFullSpectrum ext cfg mc cont_only rm_line with
    | .error msg => .error msg
    | .ok r =>
      .ok (updateRest ext cfg
        { s with model_comp := mc
                 spectrum_full := r.spectrum_full
                 spectrum_bc := (match r.spectrum_bc with
                   | some b => some b
                   | none => s.spectrum_bc)
                 line_fluxes := some r.line_fluxes
                 lum_flux := r.lum_flux } mc false, false)

/-! ### Helper lemmas -/

theorem getD_eq_get (l : List ℚ) (d : ℚ) (i : Nat) (h : i < l.length) :
    l.getD i d = l.get ⟨i, h⟩ := by
  rw [List.getD_eq_getElem?_getD, List.getElem?_eq_getElem h]; rfl

theorem getD_set_self (l : List ℚ) (i : Nat) (v : ℚ) (h : i < l.length) :
    (l.set i v).getD i 0 = v := by
  rw [List.getD_eq_getElem?_getD, List.getElem?_set_self]
  · rfl
  · simpa using h

theorem zipWith_getD (f : ℚ → ℚ → ℚ) (as bs : List ℚ) (i : Nat)
    (h1 : i < as.length) (h2 : i < bs.length) :
    (List.zipWith f as bs).getD i 0 = f (as.getD i 0) (bs.getD i 0) := by
  have hlen : i < (List.zipWith f as bs).length := by
    simp only [List.length_zipWith]; omega
  rw [List.getD_eq_getElem?_getD, List.getElem?_eq_getElem hlen,
    List.getD_eq_getElem?_getD, List.getElem?_eq_getElem h1,
    List.getD_eq_getElem?_getD, List.getElem?_eq_getElem h2]
  simp [List.getElem_zipWith]

theorem trapz_map_mul (c : ℚ) : ∀ (ys xs : List ℚ),
    trapz (ys.map (fun y => c * y)) xs = c * trapz ys xs := by
  intro ys
  induction ys with
  | nil => intro xs; simp [trapz]
  | cons y1 ys ih =>
    intro xs
    cases ys with
    | nil => cases xs <;> simp [trapz]
    | cons y2 ys2 =>
      cases xs with
      | nil => simp [trapz]
      | cons x1 xs1 =>
        cases xs1 with
        | nil => simp [trapz]
        | cons x2 xs2 =>
          have h := ih (x2 :: xs2)
          simp only [List.map_cons, trapz] at h ⊢
          rw [h]; ring

theorem trapz_zipWith_add : ∀ (ys zs xs : List ℚ), ys.length = zs.length →
    trapz (List.zipWith (· + ·) ys zs) xs = trapz ys xs + trapz zs xs := by
  intro ys
  induction ys with
  | nil =>
    intro zs xs hlen
    rw [List.length_nil] at hlen
    obtain rfl := List.length_eq_zero.mp hlen.symm
    simp [trapz]
  | cons y1 ys ih =>
    intro zs xs hlen
    cases zs with
    | nil => simp at hlen
    | cons z1 zs1 =>
      cases ys with
      | nil =>
        cases zs1 with
        | nil => cases xs <;> simp [trapz]
        | cons _ _ => simp at hlen
      | cons y2 ys2 =>
        cases zs1 with
        | nil => simp at hlen
        | cons z2 zs2 =>
          cases xs with
          | nil => simp [trapz]
          | cons x1 xs1 =>
            cases xs1 with
            | nil => simp [trapz]
            | cons x2 xs2 =>
              have h := ih (z2 :: zs2) (x2 :: xs2) (by simpa using hlen)
              simp only [List.zipWith_cons_cons, trapz] at h ⊢
              rw [h]; ring

theorem argminAux_lt : ∀ (l : List ℚ) (i bi : Nat) (bv : ℚ), bi < i →
    argminAux l i bi bv < i + l.length := by
  intro l
  induction l with
  | nil => intro i bi bv h; simpa [argminAux] using by omega
  | cons x xs ih =>
    intro i bi bv h
    simp only [argminAux, List.length_cons]
    by_cases hx : x < bv
    · rw [if_pos hx]
      have := ih (i + 1) i x (by omega)
      omega
    · rw [if_neg hx]
      have := ih (i + 1) bi bv (by omega)
      omega

theorem argminIdx_lt_length (l : List ℚ) (i : Nat) (h : argminIdx l = some i) :
    i < l.length := by
  cases l with
  | nil => simp [argminIdx] at h
  | cons x xs =>
    simp only [argminIdx, Option.some.injEq] at h
    subst h
    have := argminAux_lt xs 1 0 x (by omega)
    simp only [List.length_cons]
    omega

theorem linesMatching_eq_nil (cfg : Config) (rm : String) (h : rm ∉ cfg.lineNames) :
    linesMatching cfg rm = [] := by
  have getD_mem : ∀ (l : List String) (i : Nat), i < l.length → l.getD i "" ∈ l := by
    intro l i hi
    rw [List.getD_eq_getElem?_getD, List.getElem?_eq_getElem hi]
    exact List.getElem_mem hi
  rw [linesMatching, List.filter_eq_nil_iff]
  intro i hi
  simp only [List.mem_range] at hi
  simp only [beq_iff_eq]
  intro heq
  exact h (heq ▸ getD_mem cfg.lineNames i hi)

/-- Strictly increasing wavelength grids have positive local bin widths. -/
theorem pairwise_getD_lt (l : List ℚ) (hmono : l.Pairwise (· < ·)) (i j : Nat)
    (hij : i < j) (hj : j < l.length) : l.getD i 0 < l.getD j 0 := by
  have hi : i < l.length := by omega
  rw [getD_eq_get l 0 i hi, getD_eq_get l 0 j hj]
  exact List.pairwise_iff_get.mp hmono ⟨i, hi⟩ ⟨j, hj⟩ hij

/-! ### Concrete fixtures for witnesses and counterexamples -/

/-- A fully concrete external-collaborator bundle: every opaque provider is a
simple rational function, so the pipeline evaluates by `decide`. -/
def extW : Ext where
  exp := fun q => q
  tenPow := fun q => q + 1
  pi := 3
  sqrtPi := 2
  sfh := fun _ => (false, [1])
  dustCurves := fun _ => ([1, 1, 1], [1])
  stellar := fun _ _ => ([1, 1, 1], [2, 2, 2])
  nebLineFluxes := fun _ _ _ => [1]
  nebSpectrum := fun _ _ _ => [1, 1, 1]
  igmTrans := fun _ => [1, 1, 1]
  dustEmission := fun _ _ _ => [1, 1, 1]
  agnSpectrum := fun _ => [1, 1, 1]
  agnInterp := fun _ _ _ => [1, 1, 1]
  ldistInterp := fun _ => 1
  calcSpectrum := fun _ _ => [5]
  photometry := fun _ _ => [7]
  uvjMags := fun s => [s.headD 0, 1, 1]
  measureIndex := fun _ _ _ => 9

/-- The concrete bundle with an unphysical star-formation history. -/
def extU : Ext := { extW with sfh := fun _ => (true, [1]) }

/-- A minimal concrete configuration: three grid points, one nebular line. -/
def cfgW : Config where
  wavelengths := [1, 2, 3]
  lineNames := ["Ha"]
  lineWavs := [2]
  dustAtten := false
  nebular := true
  agn := false
  specWavs := none
  filtList := false
  indexList := none

/-- A concrete model-components dictionary with nebular and dust parameters. -/
def mcW : ModelComponents :=
  [("redshift", MCEntry.num 0),
   ("dust", MCEntry.sub [("Av", 1)]),
   ("nebular", MCEntry.sub [("logU", -3)])]

/-- A blank pre-update state (no attribute written yet). -/
def s0 : GalaxyState where
  model_comp := []
  spectrum_full := []
  spectrum_bc := none
  line_fluxes := none
  lum_flux := 0
  uvj := []
  spectrum := none
  photometry := none
  indices := none
  index_names := none

/-! ### Claim theorems -/

/-- Claim C7: in the luminosity-to-flux conversion stage, a redshift of exactly 0
gives a flux-dilution divisor of exactly 1, so the spectrum and the line
fluxes are unchanged apart from the solar-luminosity unit constant; for a
redshift greater than 0 the divisor is `4 pi d_L^2` with `d_L` interpolated
from the precomputed redshift-distance table, the spectrum is divided by
`lum_flux * (1 + z)`, and the emission-line fluxes are divided by `lum_flux`
only, with no `(1 + z)` factor. The birth-cloud spectrum goes through the
same `fluxConvertSpec` as the full spectrum (see `fullSpecCore`). -/
theorem C7_flux_conversion (ext : Ext) (z : ℚ) (spec em : List ℚ) :
    (z = 0 → lumFluxOf ext z = 1 ∧
      fluxConvertSpec (lumFluxOf ext z) z spec = spec.map (fun s => s * (3.826 * 10 ^ 33)) ∧
      fluxConvertLines (lumFluxOf ext z) em = em.map (fun s => s * (3.826 * 10 ^ 33)))
    ∧ (0 < z →
      lumFluxOf ext z = 4 * ext.pi * (3.086 * 10 ^ 24 * ext.ldistInterp z) ^ 2 ∧
      fluxConvertSpec (lumFluxOf ext z) z spec
        = (spec.map (fun s => s / (lumFluxOf ext z * (1.0 + z)))).map
            (fun s => s * (3.826 * 10 ^ 33)) ∧
      fluxConvertLines (lumFluxOf ext z) em
        = (em.map (fun s => s / lumFluxOf ext z)).map (fun s => s * (3.826 * 10 ^ 33))) := by
  constructor
  · rintro rfl
    refine ⟨by norm_num [lumFluxOf], ?_, ?_⟩
    · norm_num [fluxConvertSpec, lumFluxOf]
    · norm_num [fluxConvertLines, lumFluxOf]
  · intro hz
    exact ⟨by rw [lumFluxOf, if_pos hz], rfl, rfl⟩

/-- Witness for C7 at redshift 0 and redshift 2 with the concrete bundle. -/
theorem C7_witness :
    lumFluxOf extW 0 = 1
    ∧ fluxConvertSpec (lumFluxOf extW 0) 0 [2] = [2 * (3.826 * 10 ^ 33)]
    ∧ lumFluxOf extW 2 = 4 * extW.pi * (3.086 * 10 ^ 24 * extW.ldistInterp 2) ^ 2
    ∧ fluxConvertLines (lumFluxOf extW 2) [5] = [5 / lumFluxOf extW 2 * (3.826 * 10 ^ 33)] := by
  have h0 := C7_flux_conversion extW 0 [2] [2]
  have h2 := C7_flux_conversion extW 2 [5] [5]
  refine ⟨(h0.1 rfl).1, ?_, (h2.2 (by norm_num)).1, ?_⟩
  · rw [(h0.1 rfl).2.1]; rfl
  · rw [(h2.2 (by norm_num)).2.2]; rfl

/-- Claim C8: with nebular emission enabled and `cont_only` false, the stellar
birth-cloud flux at every wavelength-grid point below 912 angstroms is zeroed
before the nebular spectrum is added, so at such a point the combined
birth-cloud spectrum equals the nebular spectrum exactly — the stellar
contribution is exactly zero. `zeroBelowLyman` followed by the `zipWith`
addition is precisely the combination performed in `nebularStage`. -/
theorem C8_lyman_zeroing (wav bc neb : List ℚ) (i : Nat)
    (hiw : i < wav.length) (hib : i < bc.length) (hin : i < neb.length)
    (hlt : wav.getD i 0 < 912) :
    (List.zipWith (· + ·) (zeroBelowLyman wav bc) neb).getD i 0 = neb.getD i 0 := by
  have hzl : i < (zeroBelowLyman wav bc).length := by
    simp only [zeroBelowLyman, List.length_zipWith]; omega
  unfold zeroBelowLyman at hzl ⊢
  rw [zipWith_getD _ _ _ i hzl hin, zipWith_getD _ wav bc i hiw hib, if_pos hlt, zero_add]

/-- Witness for C8 on a concrete grid with a point below the Lyman limit. -/
theorem C8_witness :
    (List.zipWith (· + ·) (zeroBelowLyman [900, 1000] [3, 4]) [10, 20]).getD 0 0 = 10 :=
  C8_lyman_zeroing [900, 1000] [3, 4] [10, 20] 0 (by decide) (by decide) (by decide) (by decide)

/-- Claim C4: removal of a line whose name occurs (at the unique index `j`) in the
line table: with the velocity-shifted wavelength and `ind` the nearest grid
index, if `ind` is neither the first nor the last grid index the birth-cloud
spectrum at `ind` decreases by exactly the line flux divided by the local bin
width `(wavelengths[ind+1] - wavelengths[ind-1]) / 2`, a strict decrease when
the line flux is positive; if `ind` is at either grid edge the spectrum is
returned unchanged with no error. -/
theorem C4_line_removal (cfg : Config) (velshift : ℚ) (em_lines bc : List ℚ)
    (rm : String) (j ind : Nat)
    (hmono : cfg.wavelengths.Pairwise (· < ·))
    (hmatch : linesMatching cfg rm = [j])
    (hargmin : argminIdx (cfg.wavelengths.map
      (fun w => |w - cfg.lineWavs.getD j 0 * (1 + velshift / (3 * 10 ^ 5))|)) = some ind)
    (hbc : bc.length = cfg.wavelengths.length) :
    (ind ≠ 0 → ind ≠ cfg.wavelengths.length - 1 →
      removeLine cfg velshift em_lines bc rm = .ok (bc.set ind (bc.getD ind 0 -
          em_lines.getD j 0 /
          ((cfg.wavelengths.getD (ind + 1) 0 - cfg.wavelengths.getD (ind - 1) 0) / 2)))
      ∧ (bc.set ind (bc.getD ind 0 - em_lines.getD j 0 /
          ((cfg.wavelengths.getD (ind + 1) 0 - cfg.wavelengths.getD (ind - 1) 0) / 2))).getD ind 0
          = bc.getD ind 0 - em_lines.getD j 0 /
            ((cfg.wavelengths.getD (ind + 1) 0 - cfg.wavelengths.getD (ind - 1) 0) / 2)
      ∧ (0 < em_lines.getD j 0 →
          (bc.set ind (bc.getD ind 0 - em_lines.getD j 0 /
            ((cfg.wavelengths.getD (ind + 1) 0 - cfg.wavelengths.getD (ind - 1) 0) / 2))).getD ind 0
            < bc.getD ind 0))
    ∧ ((ind = 0 ∨ ind = cfg.wavelengths.length - 1) →
        removeLine cfg velshift em_lines bc rm = .ok bc) := by
  have hlen : ind < cfg.wavelengths.length := by
    have h := argminIdx_lt_length _ ind hargmin
    simpa using h
  constructor
  · intro h0 hl
    have hind1 : ind + 1 < cfg.wavelengths.length := by omega
    have hwidth : 0 < (cfg.wavelengths.getD (ind + 1) 0 - cfg.wavelengths.getD (ind - 1) 0) / 2 := by
      have := pairwise_getD_lt cfg.wavelengths hmono (ind - 1) (ind + 1) (by omega) hind1
      linarith
    refine ⟨?_, getD_set_self bc ind _ (by omega), ?_⟩
    · simp only [removeLine, hmatch, hargmin]
      rw [if_pos ⟨h0, hl⟩]
    · intro hem
      rw [getD_set_self bc ind _ (by omega)]
      have := div_pos hem hwidth
      linarith
  · intro hedge
    simp only [removeLine, hmatch, hargmin]
    rw [if_neg (by tauto)]

/-- A three-point grid with a single line used to exercise `removeLine`. -/
def cfg4 : Config :=
  { cfgW with wavelengths := [1, 2, 4] }

/-- Witness for C4: removing the line at interior index 1 of `[1, 2, 4]`
subtracts `3 / ((4 - 1) / 2) = 2` from the birth-cloud spectrum there. -/
theorem C4_witness : removeLine cfg4 0 [3] [10, 10, 10] "Ha" = .ok [10, 8, 10] := by
  have h := (C4_line_removal cfg4 0 [3] [10, 10, 10] "Ha" 0 1
    (by decide) (by decide) (by norm_num [cfg4, cfgW, argminIdx, argminAux]) (by decide)).1
    (by decide) (by decide)
  rw [h.1]
  norm_num [cfg4, cfgW]

/-- Removal of a name absent from the line table errors (the `np.argmin` of an
empty broadcast array). -/
theorem removeLine_unknown (cfg : Config) (velshift : ℚ) (em_lines bc : List ℚ)
    (rm : String) (hnotin : rm ∉ cfg.lineNames) :
    removeLine cfg velshift em_lines bc rm
      = .error "attempt to get argmin of an empty sequence" := by
  simp only [removeLine, linesMatching_eq_nil cfg rm hnotin]

/-- A removal list containing an unknown name can never succeed. -/
theorem removeLines_ne_ok (cfg : Config) (velshift : ℚ) (em_lines : List ℚ)
    (rm : String) (hnotin : rm ∉ cfg.lineNames) :
    ∀ (rms : List String) (bc : List ℚ), rm ∈ rms →
      ∀ bc2, removeLines cfg velshift em_lines bc rms ≠ .ok bc2 := by
  intro rms
  induction rms with
  | nil => intro bc hmem; simp at hmem
  | cons r rest ih =>
    intro bc hmem bc2
    simp only [removeLines]
    cases hr : removeLine cfg velshift em_lines bc r with
    | error m => simp
    | ok bc3 =>
      rcases List.mem_cons.mp hmem with rfl | hmem2
      · rw [removeLine_unknown cfg velshift em_lines bc rm hnotin] at hr
        exact absurd hr (by simp)
      · exact ih bc3 hmem2 bc2

theorem map_ne_ok_of_ne_ok {α β : Type} (res : Except String α) (f : α → β)
    (h : ∀ a, res ≠ .ok a) : ∀ b, res.map f ≠ .ok b := by
  intro b
  cases res with
  | error m => simp [Except.map]
  | ok a => exact absurd rfl (h a)

/-- The nebular stage can never succeed when the removal list contains an
unknown name (nebular enabled, continuum-only off). -/
theorem nebularStage_ne_ok (ext : Ext) (cfg : Config) (mc : ModelComponents) (t_bc : ℚ)
    (rms : List String) (bc : List ℚ) (rm : String)
    (hneb : cfg.nebular = true) (hmem : rm ∈ rms) (hnotin : rm ∉ cfg.lineNames) :
    ∀ p, nebularStage ext cfg mc t_bc false (some rms) bc ≠ .ok p := by
  intro p
  simp only [nebularStage, hneb, Bool.not_false, Bool.and_self, if_true]
  exact map_ne_ok_of_ne_ok _ _
    (fun bc2 => removeLines_ne_ok cfg _ _ rm hnotin rms _ hmem bc2) p

/-- Then `_calculate_full_spectrum` can never succeed in that situation either. -/
theorem calculateFullSpectrum_ne_ok (ext : Ext) (cfg : Config) (mc : ModelComponents)
    (rms : List String) (rm : String)
    (hneb : cfg.nebular = true) (hmem : rm ∈ rms) (hnotin : rm ∉ cfg.lineNames) :
    ∀ r, calculateFullSpectrum ext cfg mc false (some rms) ≠ .ok r := by
  intro r
  simp only [calculateFullSpectrum]
  cases hres : nebularStage ext cfg mc (numEntry mc "t_bc" 0.01) false (some rms)
      (ext.stellar (ext.sfh mc).2 (numEntry mc "t_bc" 0.01)).1 with
  | error m => simp [hres]
  | ok p =>
    exact absurd hres
      (nebularStage_ne_ok ext cfg mc (numEntry mc "t_bc" 0.01) rms
        (ext.stellar (ext.sfh mc).2 (numEntry mc "t_bc" 0.01)).1 rm hneb hmem hnotin p)

/-- Claim C9: with nebular emission enabled, `cont_only` false and a physical
star-formation history, an `update` whose removal list contains a name not in
the configured line table raises an exception (the nearest-index search runs
`np.argmin` over an array broadcast from an empty index set) rather than
silently skipping the unknown name. -/
theorem C9_unknown_line (ext : Ext) (cfg : Config) (s : GalaxyState) (mc : ModelComponents)
    (rms : List String) (rm : String)
    (hneb : cfg.nebular = true) (hphys : (ext.sfh mc).1 = false)
    (hmem : rm ∈ rms) (hnotin : rm ∉ cfg.lineNames) :
    ∃ msg, update ext cfg s mc false (some rms) = .error msg := by
  simp only [update, hphys, Bool.false_eq_true, if_false]
  cases hres : calculateFullSpectrum ext cfg mc false (some rms) with
  | error m => exact ⟨m, by simp [hres]⟩
  | ok r => exact absurd hres (calculateFullSpectrum_ne_ok ext cfg mc rms rm hneb hmem hnotin r)

/-- Witness for C9: removing the unknown line name "nope" errors. -/
theorem C9_witness : ∃ msg, update extW cfgW s0 mcW false (some ["nope"]) = .error msg :=
  C9_unknown_line extW cfgW s0 mcW ["nope"] "nope" rfl rfl (by decide) (by decide)

theorem subLookup_cons (x : String × ℚ) (l : SubComp) (k : String) :
    subLookup (x :: l) k = if x.1 == k then some x.2 else subLookup l k := by
  by_cases h : x.1 == k
  · simp [subLookup, List.find?_cons_of_pos, h]
  · simp [subLookup, List.find?_cons_of_neg, h]

theorem subLookup_map_set (k : String) (v : ℚ) : ∀ d : SubComp,
    subLookup (d.map (fun p => if p.1 == k then (k, v) else p)) k
      = if d.any (fun p => p.1 == k) then some v else none := by
  intro d
  induction d with
  | nil => simp [subLookup]
  | cons p d ih =>
    by_cases hp : p.1 == k
    · rw [List.map_cons, if_pos hp, subLookup_cons]
      simp [hp]
    · rw [List.map_cons, if_neg hp, subLookup_cons]
      simp only [hp, if_false, List.any_cons, Bool.false_or]
      exact ih

theorem subLookup_append_single (k : String) (v : ℚ) : ∀ d : SubComp,
    d.any (fun p => p.1 == k) = false → subLookup (d ++ [(k, v)]) k = some v := by
  intro d
  induction d with
  | nil => simp [subLookup_cons]
  | cons p d ih =>
    intro h
    simp only [List.any_cons, Bool.or_eq_false_iff] at h
    rw [List.cons_append, subLookup_cons, if_neg (by simp [h.1])]
    exact ih h.2

/-- After `setKey d "metallicity" zmet`, the metallicity reads back as
`zmet`, whether or not the sub-component declared one before. -/
theorem subLookup_setKey_self (d : SubComp) (k : String) (v : ℚ) :
    subLookup (setKey d k v) k = some v := by
  unfold setKey
  by_cases h : d.any (fun p => p.1 == k)
  · rw [if_pos h, subLookup_map_set, if_pos h]
  · rw [if_neg h, subLookup_append_single k v d (Bool.eq_false_iff.mpr h)]

theorem findEntry_cons (x : String × MCEntry) (l : ModelComponents) (k : String) :
    findEntry (x :: l) k = if x.1 == k then some x.2 else findEntry l k := by
  by_cases h : x.1 == k
  · simp [findEntry, List.find?_cons_of_pos, h]
  · simp [findEntry, List.find?_cons_of_neg, h]

/-- The metallicity override transforms every dictionary entry in place:
sub-component mappings get `metallicity` set (whether previously declared or
not), scalar entries pass through. -/
theorem findEntry_nebOverride (mc : ModelComponents) (zmet : ℚ) (k : String) :
    findEntry (nebOverride mc zmet) k = (findEntry mc k).map (fun entry =>
      match entry with
      | .sub d => .sub (setKey d "metallicity" zmet)
      | .num q => .num q) := by
  induction mc with
  | nil => rfl
  | cons p mc ih =>
    obtain ⟨k', entry⟩ := p
    rw [show nebOverride ((k', entry) :: mc) zmet
        = (k', match entry with
            | .sub d => MCEntry.sub (setKey d "metallicity" zmet)
            | .num q => MCEntry.num q) :: nebOverride mc zmet from by cases entry <;> rfl]
    rw [findEntry_cons, findEntry_cons]
    by_cases h : k' == k
    · rw [if_pos h, if_pos h]; cases entry <;> rfl
    · rw [if_neg h, if_neg h, ih]

/-- Claim C5 (amended): under a nebular metallicity override, every sub-component
that is a mapping — whether or not it declares a metallicity of its own — has
the override value written into its `metallicity` key (added when absent);
scalar entries are passed through unchanged, and the dictionary of the caller is
untouched (the source operates on a deep copy; the embedding is pure). -/
theorem C5_metallicity_override (mc : ModelComponents) (zmet : ℚ) (k : String) :
    (∀ d, findEntry mc k = some (.sub d) →
      findEntry (nebOverride mc zmet) k = some (.sub (setKey d "metallicity" zmet))
      ∧ subLookup (setKey d "metallicity" zmet) "metallicity" = some zmet)
    ∧ (∀ q, findEntry mc k = some (.num q) →
      findEntry (nebOverride mc zmet) k = some (.num q))
    ∧ (findEntry mc k = none → findEntry (nebOverride mc zmet) k = none) := by
  refine ⟨?_, ?_, ?_⟩
  · intro d hd
    rw [findEntry_nebOverride, hd]
    exact ⟨rfl, subLookup_setKey_self d "metallicity" zmet⟩
  · intro q hq
    rw [findEntry_nebOverride, hq]
    rfl
  · intro hn
    rw [findEntry_nebOverride, hn]
    rfl

/-- A dictionary whose dust sub-component declares no metallicity. -/
def mc5 : ModelComponents :=
  [("dust", MCEntry.sub [("Av", 1)]),
   ("nebular", MCEntry.sub [("metallicity", 7), ("logU", -3)])]

/-- Counterexample for C5 as stated: the dust sub-component declares no
metallicity of its own, yet the override writes `metallicity = 7` into it —
it is not passed through unchanged. -/
theorem C5_counterexample :
    findEntry (nebOverride mc5 7) "dust" = some (.sub [("Av", 1), ("metallicity", 7)])
    ∧ findEntry (nebOverride mc5 7) "dust" ≠ findEntry mc5 "dust" := by
  constructor <;> decide

/-- Witness for C5 on the concrete dictionary `mc5`. -/
theorem C5_witness :
    findEntry (nebOverride mc5 7) "dust" = some (MCEntry.sub (setKey [("Av", 1)] "metallicity" 7))
    ∧ subLookup (setKey [("Av", 1)] "metallicity" 7) "metallicity" = some 7 :=
  (C5_metallicity_override mc5 7 "dust").1 [("Av", 1)] (by decide)

/-- Claim C6: the energy-balance total accumulated by the dust stages is exactly
the sum of the trapezoidal integrals of the flux removed at the birth-cloud
attenuation stage (`lost1`, zero when no `eta` is declared, in which case no
birth-cloud attenuation happens) and at the diffuse-ISM stage (`lost2`); the
flux added by dust re-emission integrates to `dust_flux` times the integral
of the re-emission template, hence exactly to the total attenuated-away flux
whenever the template integrates to one over the grid. -/
theorem C6_energy_balance (ext : Ext) (wav A_cont : List ℚ) (dustSub : SubComp)
    (bc spec1 bc1 ds trans : List ℚ) (lost1 lost2 : ℚ)
    (h1 : bcDustAttenuate ext wav A_cont dustSub bc = (bc1, lost1))
    (h2 : diffuseDustAttenuate ext wav A_cont (subLookupD dustSub "Av" 0) spec1
      = (ds, trans, lost2))
    (hlen : (ext.dustEmission (subLookupD dustSub "qpah" 2.0) (subLookupD dustSub "umin" 1.0)
      (subLookupD dustSub "gamma" 0.01)).length = ds.length) :
    ((subLookup dustSub "eta" = none → lost1 = 0)
      ∧ (∀ eta, subLookup dustSub "eta" = some eta →
          lost1 = trapz (List.zipWith (· - ·) bc bc1) wav))
    ∧ lost2 = trapz (List.zipWith (· - ·) spec1 ds) wav
    ∧ trapz (dustEmissionAdd ext dustSub (lost1 + lost2) ds) wav
        = trapz ds wav + (lost1 + lost2) * trapz (ext.dustEmission
            (subLookupD dustSub "qpah" 2.0) (subLookupD dustSub "umin" 1.0)
            (subLookupD dustSub "gamma" 0.01)) wav
    ∧ (trapz (ext.dustEmission (subLookupD dustSub "qpah" 2.0) (subLookupD dustSub "umin" 1.0)
          (subLookupD dustSub "gamma" 0.01)) wav = 1 →
        trapz (dustEmissionAdd ext dustSub (lost1 + lost2) ds) wav - trapz ds wav
          = lost1 + lost2) := by
  have hmain : trapz (dustEmissionAdd ext dustSub (lost1 + lost2) ds) wav
      = trapz ds wav + (lost1 + lost2) * trapz (ext.dustEmission
          (subLookupD dustSub "qpah" 2.0) (subLookupD dustSub "umin" 1.0)
          (subLookupD dustSub "gamma" 0.01)) wav := by
    simp only [dustEmissionAdd]
    rw [trapz_zipWith_add ds ((ext.dustEmission (subLookupD dustSub "qpah" 2.0)
        (subLookupD dustSub "umin" 1.0) (subLookupD dustSub "gamma" 0.01)).map
        (fun d => (lost1 + lost2) * d)) wav (by simp [hlen])]
    rw [trapz_map_mul]
  refine ⟨⟨?_, ?_⟩, ?_, hmain, fun hT => by rw [hmain, hT]; ring⟩
  · intro heta
    simp only [bcDustAttenuate, heta, Prod.mk.injEq] at h1
    exact h1.2.symm
  · intro eta heta
    simp only [bcDustAttenuate, heta, Prod.mk.injEq] at h1
    rw [← h1.1]
    exact h1.2.symm
  · simp only [diffuseDustAttenuate, Prod.mk.injEq] at h2
    rw [← h2.1]
    exact h2.2.2.symm

/-- The concrete bundle with a unit-integral re-emission template over the
grid `[0, 1, 2]`. -/
def extC6 : Ext := { extW with dustEmission := fun _ _ _ => [1/2, 1/2, 1/2] }

/-- A dust sub-component declaring `Av = 1` and `eta = 2`. -/
def dustSub6 : SubComp := [("Av", 1), ("eta", 2)]

/-- Witness for C6: on the grid `[0, 1, 2]` with unit-integral template, the
integral of the re-emitted flux equals the accumulated losses `8/5 + 4/5`. -/
theorem C6_witness :
    trapz (dustEmissionAdd extC6 dustSub6 (8/5 + 4/5) [3/5, 3/5, 3/5]) [0, 1, 2]
      - trapz [3/5, 3/5, 3/5] [0, 1, 2] = 8/5 + 4/5 := by
  have he : subLookup dustSub6 "eta" = some 2 := by decide
  have ha : subLookupD dustSub6 "Av" 0 = 1 := by decide
  have h := C6_energy_balance extC6 [0, 1, 2] [1, 1, 1] dustSub6 [2, 2, 2] [1, 1, 1]
    [6/5, 6/5, 6/5] [3/5, 3/5, 3/5] [3/5, 3/5, 3/5] (8/5) (4/5)
    (by norm_num [bcDustAttenuate, he, ha, extC6, extW, trapz])
    (by norm_num [diffuseDustAttenuate, ha, extC6, extW, trapz])
    (by norm_num [extC6, extW])
  exact h.2.2.2 (by norm_num [extC6, extW, trapz])

/-- Claim C1 (amended): when the model components contain a `"dla"` sub-mapping,
the full spectrum is the flux-converted product of the pre-DLA spectrum with
the transmission returned by `addAbs`, evaluated at the rest-frame wavelength
grid multiplied by the model redshift `z` (not at the observed-frame grid
`wavelengths * (1 + z)`), with column density `model_comp["dla"]["t"]` and
absorber redshift `model_comp["dla"]["zabs"]`. -/
theorem C1_dla_attenuation (ext : Ext) (cfg : Config) (mc : ModelComponents)
    (spectrum spectrum_bc em_lines : List ℚ) (hdla : hasKey mc "dla" = true) :
    ∃ preDla, (fullSpecCore ext cfg mc spectrum spectrum_bc em_lines).spectrum_full
      = fluxConvertSpec (lumFluxOf ext (numEntry mc "redshift" 0)) (numEntry mc "redshift" 0)
        (List.zipWith (· * ·) preDla
          (addAbs ext (cfg.wavelengths.map (fun w => w * numEntry mc "redshift" 0))
            (subLookupD (subComp mc "dla") "t" 0)
            (subLookupD (subComp mc "dla") "zabs" 0))) := by
  simp only [fullSpecCore, dlaStage, hdla, if_true]
  exact ⟨_, rfl⟩

/-- A single-point grid for the DLA counterexample. -/
def cfgC1 : Config := { cfgW with wavelengths := [2] }

/-- A model-components dictionary at redshift 1 with a DLA component. -/
def mcDla : ModelComponents :=
  [("redshift", MCEntry.num 1), ("dla", MCEntry.sub [("t", 1), ("zabs", 0)])]

/-- Counterexample for C1 as stated: at redshift 1 the DLA stage multiplies
by `addAbs` evaluated at `wavelengths * 1 = [2]`, which differs from the
transmission evaluated at the observed-frame wavelengths
`wavelengths * (1 + 1) = [4]`. -/
theorem C1_counterexample :
    dlaStage extW cfgC1 mcDla [1]
      ≠ List.zipWith (· * ·) [1]
        (addAbs extW (cfgC1.wavelengths.map (fun w => w * (1 + numEntry mcDla "redshift" 0)))
          (subLookupD (subComp mcDla "dla") "t" 0)
          (subLookupD (subComp mcDla "dla") "zabs" 0)) := by
  have ht : subLookupD (subComp mcDla "dla") "t" 0 = 1 := by decide
  have hz : subLookupD (subComp mcDla "dla") "zabs" 0 = 0 := by decide
  have hr : numEntry mcDla "redshift" 0 = 1 := by decide
  have hd : hasKey mcDla "dla" = true := by decide
  norm_num [dlaStage, addAbs, H, extW, cfgC1, cfgW, ht, hz, hr, hd]

/-- Witness for C1 (amended) on the concrete DLA dictionary. -/
theorem C1_witness :
    ∃ preDla, (fullSpecCore extW cfgC1 mcDla [1] [1] [1]).spectrum_full
      = fluxConvertSpec (lumFluxOf extW (numEntry mcDla "redshift" 0))
          (numEntry mcDla "redshift" 0)
        (List.zipWith (· * ·) preDla
          (addAbs extW (cfgC1.wavelengths.map (fun w => w * numEntry mcDla "redshift" 0))
            (subLookupD (subComp mcDla "dla") "t" 0)
            (subLookupD (subComp mcDla "dla") "zabs" 0))) :=
  C1_dla_attenuation extW cfgC1 mcDla [1] [1] [1] (by decide)

/-- The post-branch tail of `update` never writes the birth-cloud spectrum,
the line-flux mapping, the luminosity-flux factor or the stored components. -/
theorem updateRest_frame (ext : Ext) (cfg : Config) (s : GalaxyState) (mc : ModelComponents)
    (unph : Bool) :
    (updateRest ext cfg s mc unph).model_comp = s.model_comp
    ∧ (updateRest ext cfg s mc unph).spectrum_bc = s.spectrum_bc
    ∧ (updateRest ext cfg s mc unph).line_fluxes = s.line_fluxes
    ∧ (updateRest ext cfg s mc unph).lum_flux = s.lum_flux :=
  ⟨rfl, rfl, rfl, rfl⟩

/-- With an unphysical star-formation history the UVJ recomputation is
skipped, so the tail leaves the UVJ magnitudes untouched. -/
theorem updateRest_uvj_unphysical (ext : Ext) (cfg : Config) (s : GalaxyState)
    (mc : ModelComponents) : (updateRest ext cfg s mc true).uvj = s.uvj := rfl

/-- Without an AGN component the tail leaves the full spectrum untouched. -/
theorem updateRest_spectrum_full_noAgn (ext : Ext) (cfg : Config) (s : GalaxyState)
    (mc : ModelComponents) (unph : Bool) (h : cfg.agn = false) :
    (updateRest ext cfg s mc unph).spectrum_full = s.spectrum_full := by
  simp only [updateRest, h, Bool.false_eq_true, if_false]

/-- Claim C2 (amended): an `update` whose star-formation history is unphysical emits
the warning and returns without raising, and afterwards the UVJ magnitudes are
the all-zero length-3 array in every instance configuration; the full spectrum
is the all-zero array over the wavelength grid in every configuration without
an AGN component (with an AGN component configured, the AGN contribution is
still added to the zeroed spectrum, which is then nonzero in general). -/
theorem C2_unphysical_update (ext : Ext) (cfg : Config) (s : GalaxyState)
    (mc : ModelComponents) (cont_only : Bool) (rm_line : Option (List String))
    (hun : (ext.sfh mc).1 = true) :
    ∃ s1, update ext cfg s mc cont_only rm_line = .ok (s1, true)
      ∧ s1.uvj = List.replicate 3 0
      ∧ (cfg.agn = false → s1.spectrum_full = List.replicate cfg.wavelengths.length 0) := by
  refine ⟨updateRest ext cfg
    { s with
      model_comp := mc,
      spectrum_full := List.replicate cfg.wavelengths.length 0,
      uvj := List.replicate 3 0 } mc true, ?_, ?_, ?_⟩
  · rw [update, if_pos hun]
  · rw [updateRest_uvj_unphysical]
  · intro hagn
    rw [updateRest_spectrum_full_noAgn _ _ _ _ _ hagn]

/-- The configuration `cfgW` with an AGN component enabled. -/
def cfgAgn : Config := { cfgW with agn := true }

/-- Counterexample for C2 as stated: with an AGN component configured and an
unphysical star-formation history, the full spectrum after `update` is the
AGN contribution `[1, 1, 1]`, not the all-zero array. -/
theorem C2_counterexample :
    (update extU cfgAgn s0 mcW false none).map (fun p => (p.1.spectrum_full, p.1.uvj, p.2))
      = .ok ([1, 1, 1], [0, 0, 0], true)
    ∧ ([1, 1, 1] : List ℚ) ≠ List.replicate cfgAgn.wavelengths.length 0 := by
  have hz : numEntry mcW "redshift" 0 = 0 := by decide
  constructor
  · norm_num [update, updateRest, extU, extW, cfgAgn, cfgW, s0, hz, Except.map,
      List.replicate]
  · decide

/-- Witness for C2 (amended) on the concrete unphysical bundle. -/
theorem C2_witness :
    ∃ s1, update extU cfgW s0 mcW false none = .ok (s1, true)
      ∧ s1.uvj = List.replicate 3 0
      ∧ (cfgW.agn = false → s1.spectrum_full = List.replicate cfgW.wavelengths.length 0) :=
  C2_unphysical_update extU cfgW s0 mcW false none rfl

/-- Claim C10 (amended): when `update` runs with an unphysical star-formation
history, of the spectrum-synthesis attributes only the full spectrum and the
UVJ magnitudes are written (to zeros; a configured AGN component still adds
its contribution to the zeroed full spectrum afterwards, and downstream
attributes — resampled spectrum, photometry, indices — are still recomputed
when configured); the line-flux mapping, the birth-cloud spectrum and the
luminosity-flux factor are not written by that call and retain whatever the
previous update left (`none` when no physical update preceded it). -/
theorem C10_unphysical_frame (ext : Ext) (cfg : Config) (s : GalaxyState)
    (mc : ModelComponents) (cont_only : Bool) (rm_line : Option (List String))
    (hun : (ext.sfh mc).1 = true) :
    ∃ s1, update ext cfg s mc cont_only rm_line = .ok (s1, true)
      ∧ s1.line_fluxes = s.line_fluxes
      ∧ s1.spectrum_bc = s.spectrum_bc
      ∧ s1.lum_flux = s.lum_flux
      ∧ s1.uvj = List.replicate 3 0
      ∧ (cfg.agn = false → s1.spectrum_full = List.replicate cfg.wavelengths.length 0) := by
  refine ⟨updateRest ext cfg
    { s with
      model_comp := mc,
      spectrum_full := List.replicate cfg.wavelengths.length 0,
      uvj := List.replicate 3 0 } mc true, ?_, rfl, rfl, rfl, ?_, ?_⟩
  · rw [update, if_pos hun]
  · rw [updateRest_uvj_unphysical]
  · intro hagn
    rw [updateRest_spectrum_full_noAgn _ _ _ _ _ hagn]

/-- The configuration `cfgW` with broadband filters enabled. -/
def cfgFilt : Config := { cfgW with filtList := true }

/-- Counterexample for C10 as stated: with filters configured, an unphysical
`update` also writes the photometry attribute (from the zero spectrum), so
the full spectrum and UVJ magnitudes are not the only attributes written. -/
theorem C10_counterexample :
    s0.photometry = none
    ∧ (update extU cfgFilt s0 mcW false none).map (fun p => p.1.photometry)
      = .ok (some [7]) := by
  have hz : numEntry mcW "redshift" 0 = 0 := by decide
  constructor
  · rfl
  · norm_num [update, updateRest, extU, extW, cfgFilt, cfgW, s0, hz, Except.map]

/-- Witness for C10 (amended) on a filter-enabled concrete configuration. -/
theorem C10_witness :
    ∃ s1, update extU cfgFilt s0 mcW true none = .ok (s1, true)
      ∧ s1.line_fluxes = s0.line_fluxes
      ∧ s1.spectrum_bc = s0.spectrum_bc
      ∧ s1.lum_flux = s0.lum_flux
      ∧ s1.uvj = List.replicate 3 0
      ∧ (cfgFilt.agn = false → s1.spectrum_full = List.replicate cfgFilt.wavelengths.length 0) :=
  C10_unphysical_frame extU cfgFilt s0 mcW true none rfl

/-- Claim C3: `update` is idempotent — a second call with identical arguments
reproduces exactly the state and warning flag of the first call; every output
attribute (full spectrum, resampled spectrum, line-flux mapping, photometry,
UVJ magnitudes, index values) is a pure function of the arguments and the
attributes carried over unchanged, with no hidden accumulating state. -/
theorem C3_update_idempotent (ext : Ext) (cfg : Config) (s : GalaxyState)
    (mc : ModelComponents) (cont_only : Bool) (rm_line : Option (List String))
    (s1 : GalaxyState) (w1 : Bool)
    (h : update ext cfg s mc cont_only rm_line = .ok (s1, w1)) :
    update ext cfg s1 mc cont_only rm_line = .ok (s1, w1) := by
  obtain ⟨wav, ln, lw, da, neb, agnb, sw, fl, il⟩ := cfg
  unfold update at h ⊢
  by_cases hu : (ext.sfh mc).1 = true
  · rw [if_pos hu] at h ⊢
    injection h with h2
    injection h2 with hs hw
    subst hs
    subst hw
    cases agnb <;> cases sw <;> cases fl <;> cases il <;> rfl
  · rw [if_neg hu] at h ⊢
    cases hc : calculateFullSpectrum ext ⟨wav, ln, lw, da, neb, agnb, sw, fl, il⟩
        mc cont_only rm_line with
    | error msg =>
      rw [hc] at h
      simp at h
    | ok r =>
      rw [hc] at h
      simp only [Except.ok.injEq, Prod.mk.injEq] at h
      obtain ⟨hs, hw⟩ := h
      subst hs
      subst hw
      obtain ⟨sf, sbc, lfx, lfl⟩ := r
      cases sbc <;> cases agnb <;> cases sw <;> cases fl <;> cases il <;> rfl

/-- Witness for C3: running `update` a second time from the state the first
call produced reproduces the result of the first call exactly. -/
theorem C3_witness :
    (update extW cfgW s0 mcW false none).bind
      (fun q => update extW cfgW q.1 mcW false none) = update extW cfgW s0 mcW false none := by
  cases hr : update extW cfgW s0 mcW false none with
  | error msg => rfl
  | ok p => exact C3_update_idempotent extW cfgW s0 mcW false none p.1 p.2 (by rw [hr])

end GlassNiriss
